import Mathlib

/-!
Shallow embedding of the semantic-analysis pipeline of the `rune_parser`
schema compiler (Rust), covering the constant resolver
(`src/post_processing/process_defines.rs`), the type linker
(`src/post_processing/process_user_definitions.rs`), the extension merger
(`src/post_processing/process_extensions.rs`), the validator
(`src/validation.rs`), the size estimator (`src/types/messages.rs`,
`src/types/arrays.rs`) and the driver composition (`src/lib.rs`).

Modelling conventions:
* Rust `u64` values are `Nat`; arithmetic that can overflow in Rust is
  performed with an explicit `% 2 ^ 64` (`wrap64`).
* Rust `f64` payloads of numeric literals are modelled as exact rationals
  (`Rat`); every finite IEEE double is a rational, and the comparisons the
  code performs on them (equality, order, zero fractional part) agree with
  the rational ones on finite values.
* Fallible Rust functions return `Except RuneParserError _`.  A function
  that can panic (index out of bounds, integer underflow, `unwrap` of
  `None`) additionally returns `Option _`, with `none` denoting the panic.
* Rust `Vec` is `List`; `Vec::swap_remove` is `swapRemove` below.
* Loops are encoded as structural recursions on an explicit iteration
  count that is exactly the number of remaining loop iterations at each
  call site, so all definitions compute by `rfl`/`decide`.
-/

namespace Rune

/-- `u64` wrap-around arithmetic mask, applied where Rust `u64` operations
can overflow. -/
def wrap64 (n : Nat) : Nat := n % 2 ^ 64

/-- Model of Rust `Vec::swap_remove(i)`: remove index `i`, moving the last
element into its place.  All call sites in the embedded code guarantee
`i < xs.length`; on an empty list the Rust call would panic, call sites
guard for that separately. -/
def swapRemove {α : Type} (xs : List α) (i : Nat) : List α :=
  match xs.getLast? with
  | none => []
  | some last => (xs.set i last).dropLast

/-- `src/lib.rs` `RuneParserError` (the file-system variants are never
produced by the embedded passes). -/
inductive RuneParserError
  | InvalidInputPath
  | InvalidFilePath
  | FileSystemError
  | IdentifierCollision
  | IndexCollision
  | NameCollision
  | ValueCollision
  | InvalidTotalBitfieldSize
  | InvalidEncodedSize
  | InvalidArrayType
  | InvalidArraySize
  | InvalidStructMemberType
  | UseOfReservedIndex
  | ExtensionMismatch
  | UndefinedIdentifier
  | MultipleDefinitions
  | MultipleRedefinitions
  | InvalidNumericValue
  | EmptyMessageField
  | InvalidTypeUse
deriving DecidableEq, Repr

/-- `src/scanner.rs` `NumeralSystem`. -/
inductive NumeralSystem
  | binary
  | decimal
  | hexadecimal
deriving DecidableEq, Repr

/-- `src/scanner.rs` `NumericLiteral`.  `asciiChar` carries the Rust
`char` as its code point; `float` carries the exact rational value of the
finite `f64`. -/
inductive NumericLiteral
  | asciiChar (value : Nat)
  | boolean (value : Bool)
  | positiveInteger (value : Nat) (system : NumeralSystem)
  | negativeInteger (value : Int) (system : NumeralSystem)
  | float (value : Rat)
deriving DecidableEq, Repr

/-- Rust `x as u8` on a `char`/integer value. -/
def asU8 (n : Nat) : Nat := n % 2 ^ 8

/-- `f64::fract() == 0.0` for a finite float modelled as a rational. -/
def ratIsIntegral (q : Rat) : Bool := q.den == 1

/-- `src/scanner.rs` `impl PartialEq for NumericLiteral`: cross-variant
numeric equality. -/
def NumericLiteral.beq : NumericLiteral → NumericLiteral → Bool
  | .asciiChar own, other =>
    match other with
    | .asciiChar v => own == v
    | .boolean v => asU8 own == (if v then 1 else 0)
    | .positiveInteger v _ => if v ≤ 255 then asU8 own == asU8 v else false
    | .float v => if ratIsIntegral v && 0 ≤ v then asU8 own == asU8 v.num.toNat else false
    | _ => false
  | .boolean own, other =>
    match other with
    | .asciiChar v => (if own then 1 else 0) == asU8 v
    | .boolean v => own == v
    | .positiveInteger v _ => (if own then 1 else 0) == v
    | .float v => if ratIsIntegral v && 0 ≤ v then (if own then 1 else 0) == v.num.toNat else false
    | _ => false
  | .positiveInteger own _, other =>
    match other with
    | .asciiChar v => if own ≤ 255 then asU8 own == asU8 v else false
    | .boolean v => own == (if v then 1 else 0)
    | .positiveInteger v _ => own == v
    | .float v => if ratIsIntegral v && 0 ≤ v && v ≤ ((2 ^ 64 - 1 : Nat) : Rat) then own == v.num.toNat else false
    | _ => false
  | .negativeInteger own _, other =>
    match other with
    | .negativeInteger v _ => own == v
    | .float v => if ratIsIntegral v && v ≤ 0 && (((-(2 ^ 63) : Int) : Rat)) ≤ v then own == v.num else false
    | _ => false
  | .float own, other =>
    match other with
    | .asciiChar v => if ratIsIntegral own && 0 ≤ own && own ≤ (255 : Rat) then asU8 own.num.toNat == asU8 v else false
    | .float v => own == v
    | .boolean v => if ratIsIntegral own && 0 ≤ own && own ≤ ((2 ^ 64 - 1 : Nat) : Rat) then own.num.toNat == (if v then 1 else 0) else false
    | .positiveInteger v _ => if ratIsIntegral own && 0 ≤ own && own ≤ ((2 ^ 64 - 1 : Nat) : Rat) then own.num.toNat == v else false
    | .negativeInteger v _ => if ratIsIntegral own && own ≤ 0 && (((-(2 ^ 63) : Int) : Rat)) ≤ own then own.num == v else false

/-- `src/types/primitives.rs` `Primitive`. -/
inductive Primitive
  | bool
  | char
  | i8
  | u8
  | i16
  | u16
  | f32
  | i32
  | u32
  | f64
  | i64
  | u64
  | i128
  | u128
deriving DecidableEq, Repr

/-- `src/types/primitives.rs` `Primitive::encoded_max_data_size`. -/
def Primitive.encoded_max_data_size : Primitive → Nat
  | .bool | .char | .i8 | .u8 => 1
  | .i16 | .u16 => 2
  | .f32 | .i32 | .u32 => 4
  | .f64 | .i64 | .u64 => 8
  | .i128 | .u128 => 16

/-- `Primitive::U8_RANGE.contains` — the half-open Rust range
`u8::MIN..u8::MAX`, i.e. `0 ≤ n < 255`. -/
def u8RangeContains (n : Nat) : Bool := n < 255

/-- `Primitive::U16_RANGE.contains` — `0 ≤ n < 65535`. -/
def u16RangeContains (n : Nat) : Bool := n < 65535

/-- `Primitive::U32_RANGE.contains` — `0 ≤ n < 4294967295`. -/
def u32RangeContains (n : Nat) : Bool := n < 4294967295

/-- `src/types/defines.rs` `DefineValue`. -/
inductive DefineValue
  | noValue
  | numericLiteral (value : NumericLiteral)
deriving DecidableEq, Repr

/-- `src/types/defines.rs` `RedefineDefinition`. -/
structure RedefineDefinition where
  name : String
  value : DefineValue
  comment : Option String
deriving DecidableEq, Repr

/-- `src/types/defines.rs` `DefineDefinition`. -/
structure DefineDefinition where
  name : String
  value : DefineValue
  comment : Option String
  redefinition : Option RedefineDefinition
deriving DecidableEq, Repr

/-- `src/types/standalone_comments.rs` `CommentPosition` (inert data). -/
inductive CommentPosition
  | above
  | inline
deriving DecidableEq, Repr

/-- `src/types/standalone_comments.rs` `StandaloneCommentDefinition`. -/
structure StandaloneCommentDefinition where
  position : CommentPosition
  content : String
deriving DecidableEq, Repr

/-- `src/types/bitfields.rs` `BitSize`. -/
inductive BitSize
  | signed (size : Nat)
  | unsigned (size : Nat)
deriving DecidableEq, Repr

/-- `src/types/bitfields.rs` `BitSize::absolute`. -/
def BitSize.absolute : BitSize → Nat
  | .signed size => size
  | .unsigned size => size

/-- `src/types/bitfields.rs` `BitfieldMember`. -/
structure BitfieldMember where
  identifier : String
  size : BitSize
  index : Nat
  comment : Option String
deriving DecidableEq, Repr

/-- `src/types/bitfields.rs` `BitfieldDefinition`.  The backing type is
modelled as `Primitive` (the post-refactor primitive type used by the
enum/link code; only its equality and `encoded_max_data_size` are read by
the embedded passes). -/
structure BitfieldDefinition where
  name : String
  backing_type : Primitive
  members : List BitfieldMember
  reserved_indexes : List Nat
  comment : Option String
  orphan_comments : List StandaloneCommentDefinition
deriving DecidableEq, Repr

/-- `src/types/enums.rs` `EnumMember`. -/
structure EnumMember where
  identifier : String
  value : NumericLiteral
  comment : Option String
deriving DecidableEq, Repr

/-- `src/types/enums.rs` `EnumDefinition`. -/
structure EnumDefinition where
  name : String
  backing_type : Primitive
  members : List EnumMember
  reserved_values : List NumericLiteral
  comment : Option String
  orphan_comments : List StandaloneCommentDefinition
deriving DecidableEq, Repr

/-- `src/types/messages.rs` `FieldIndex` (the struct-side `FieldIndex` of
`src/types/structs.rs` is identical). -/
inductive FieldIndex
  | numeric (value : Nat)
  | verifier
deriving DecidableEq, Repr

/-- `src/types/messages.rs` `FieldIndex::value` — the verifier alias
denotes index 0. -/
def FieldIndex.value : FieldIndex → Nat
  | .numeric value => value
  | .verifier => 0

/-- `src/types/messages.rs` `FieldIndex::is_verifier`. -/
def FieldIndex.is_verifier : FieldIndex → Bool
  | .numeric _ => false
  | .verifier => true

/-- `src/types/messages.rs` / `src/types/structs.rs`
`impl PartialEq for FieldIndex`: indexes compare by resolved value, so the
verifier alias equals an explicit numeric 0. -/
def FieldIndex.beq (a b : FieldIndex) : Bool := a.value == b.value

/-- `src/types/arrays.rs` `ArraySize`. -/
inductive ArraySize
  | integer (value : Nat) (system : NumeralSystem)
  | userDefinition (definition : DefineDefinition)
deriving DecidableEq, Repr

/-- `src/types/arrays.rs` `ArraySize::value`. -/
def ArraySize.value : ArraySize → Except RuneParserError Nat
  | .integer value _ => .ok value
  | .userDefinition definition =>
    match (match definition.redefinition with
           | none => definition.value
           | some redefinition => redefinition.value) with
    | .numericLiteral (.positiveInteger value _) => .ok value
    | _ => .error .InvalidArraySize

mutual

/-- `src/types/links.rs` `UserDefinitionLink`: an unresolved reference or a
cloned, frozen snapshot of the referenced declaration. -/
inductive UserDefinitionLink
  | noLink
  | bitfieldLink (definition : BitfieldDefinition)
  | enumLink (definition : EnumDefinition)
  | messageLink (definition : MessageDefinition)
  | structLink (definition : StructDefinition)

/-- `src/types/arrays.rs` `ArrayType`. -/
inductive ArrayType
  | primitive (primitive : Primitive)
  | userDefined (name : String) (link : UserDefinitionLink)

/-- `src/types/arrays.rs` `Array` (element type and element count). -/
inductive Array
  | mk (data_type : ArrayType) (element_count : ArraySize)

/-- `src/types/messages.rs` `FieldType`. -/
inductive FieldType
  | empty
  | primitive (primitive : Primitive)
  | array (array : Array)
  | userDefined (name : String) (link : UserDefinitionLink)

/-- Modelled from the spec: the post-refactor struct-member type referred
to as `MemberType` by `src/post_processing/process_user_definitions.rs`
(its declaring module is not under `src/`).  Per the spec's data model a
struct member is a primitive, an array, or a named user type carrying its
resolved link; the variants match the patterns the linker matches on. -/
inductive MemberType
  | primitive (primitive : Primitive)
  | array (array : Array)
  | userDefined (name : String) (link : UserDefinitionLink)

/-- `src/types/messages.rs` `MessageField`. -/
inductive MessageField
  | mk (identifier : String) (data_type : FieldType) (index : FieldIndex)
      (comment : Option String)

/-- `src/types/messages.rs` `MessageDefinition`. -/
inductive MessageDefinition
  | mk (name : String) (fields : List MessageField)
      (reserved_indexes : List FieldIndex) (comment : Option String)
      (orphan_comments : List StandaloneCommentDefinition)

/-- Modelled from the spec: the post-refactor `StructMember` used by the
linker and merger (its declaring module is not under `src/`; the
pre-refactor `src/types/structs.rs` shows the same shape with the member
type inlined).  A member has an identifier, a `MemberType`, a field index
and a comment. -/
inductive StructMember
  | mk (identifier : String) (data_type : MemberType) (index : FieldIndex)
      (comment : Option String)

/-- Modelled from the spec: the post-refactor `StructDefinition` (name,
members, reserved indexes, comments), as used by the linker, merger and
validator. -/
inductive StructDefinition
  | mk (name : String) (members : List StructMember)
      (reserved_indexes : List FieldIndex) (comment : Option String)
      (orphan_comments : List StandaloneCommentDefinition)

end

def MessageField.identifier : MessageField → String
  | .mk identifier _ _ _ => identifier

def MessageField.data_type : MessageField → FieldType
  | .mk _ data_type _ _ => data_type

def MessageField.index : MessageField → FieldIndex
  | .mk _ _ index _ => index

def MessageDefinition.name : MessageDefinition → String
  | .mk name _ _ _ _ => name

def MessageDefinition.fields : MessageDefinition → List MessageField
  | .mk _ fields _ _ _ => fields

def MessageDefinition.reserved_indexes : MessageDefinition → List FieldIndex
  | .mk _ _ reserved_indexes _ _ => reserved_indexes

def StructMember.identifier : StructMember → String
  | .mk identifier _ _ _ => identifier

def StructMember.data_type : StructMember → MemberType
  | .mk _ data_type _ _ => data_type

def StructMember.index : StructMember → FieldIndex
  | .mk _ _ index _ => index

def StructDefinition.name : StructDefinition → String
  | .mk name _ _ _ _ => name

def StructDefinition.members : StructDefinition → List StructMember
  | .mk _ members _ _ _ => members

def StructDefinition.reserved_indexes : StructDefinition → List FieldIndex
  | .mk _ _ reserved_indexes _ _ => reserved_indexes

def Array.data_type : Array → ArrayType
  | .mk data_type _ => data_type

def Array.element_count : Array → ArraySize
  | .mk _ element_count => element_count

/-- `src/types/mod.rs` (post-refactor) `IncludeDefinition`. -/
structure IncludeDefinition where
  file : String
deriving DecidableEq, Repr

/-- Modelled from the spec: the post-refactor `Extensions` bucket used by
`src/post_processing/process_extensions.rs` — per-file partial
bitfield/enum/message/struct fragments (the pre-refactor
`src/types/extensions.rs` lacks the message list the merger reads). -/
structure Extensions where
  bitfields : List BitfieldDefinition
  enums : List EnumDefinition
  messages : List MessageDefinition
  structs : List StructDefinition

/-- `Extensions::is_empty`, extended with the message list the merger
reads. -/
def Extensions.is_empty (e : Extensions) : Bool :=
  e.bitfields.isEmpty && e.enums.isEmpty && e.messages.isEmpty && e.structs.isEmpty

/-- Modelled from the spec: the post-refactor `Definitions` tree (the
pre-refactor `src/types/mod.rs` lacks the `messages` list every embedded
pass reads).  Fields: bitfields, defines, redefines, enums, extensions,
includes, messages, standalone comments, structs. -/
structure Definitions where
  bitfields : List BitfieldDefinition
  defines : List DefineDefinition
  redefines : List RedefineDefinition
  enums : List EnumDefinition
  extensions : Extensions
  includes : List IncludeDefinition
  messages : List MessageDefinition
  standalone_comments : List StandaloneCommentDefinition
  structs : List StructDefinition

/-- `src/lib.rs` `RuneFileDescription`. -/
structure RuneFileDescription where
  relative_path : String
  name : String
  definitions : Definitions

mutual

/-- `true` iff no `noLink` occurs anywhere inside the link (the
self-containedness property the spec asserts of linker output). -/
def UserDefinitionLink.fullyResolved : UserDefinitionLink → Bool
  | .noLink => false
  | .bitfieldLink _ => true
  | .enumLink _ => true
  | .messageLink (.mk _ fields _ _ _) => fieldsResolved fields
  | .structLink (.mk _ members _ _ _) => membersResolved members

def fieldsResolved : List MessageField → Bool
  | [] => true
  | .mk _ data_type _ _ :: rest => FieldType.resolved data_type && fieldsResolved rest

def membersResolved : List StructMember → Bool
  | [] => true
  | .mk _ data_type _ _ :: rest => MemberType.resolved data_type && membersResolved rest

def FieldType.resolved : FieldType → Bool
  | .empty => true
  | .primitive _ => true
  | .array (.mk data_type _) => ArrayType.resolved data_type
  | .userDefined _ link => link.fullyResolved

def MemberType.resolved : MemberType → Bool
  | .primitive _ => true
  | .array (.mk data_type _) => ArrayType.resolved data_type
  | .userDefined _ link => link.fullyResolved

def ArrayType.resolved : ArrayType → Bool
  | .primitive _ => true
  | .userDefined _ link => link.fullyResolved

end

/-! ## Constant Resolver — `src/post_processing/process_defines.rs` -/

/-- The duplicate-name scan of `parse_define_statements` (nested index
loops over the flattened list; each element is compared against the tail
after it). -/
def hasDuplicateDefineName : List DefineDefinition → Bool
  | [] => false
  | d :: rest => rest.any (fun other => d.name == other.name) || hasDuplicateDefineName rest

/-- Duplicate scan over the flattened redefine list. -/
def hasDuplicateRedefineName : List RedefineDefinition → Bool
  | [] => false
  | d :: rest => rest.any (fun other => d.name == other.name) || hasDuplicateRedefineName rest

/-- The redefine-attachment loop `for i in 0..redefines_list.len()` of
`parse_define_statements`: the iteration count is fixed when the loop
starts (`gas`, initially the list length), while the list itself shrinks
under `swap_remove`, so the indexing `redefines_list[i]` can run out of
bounds — `none` models that panic. -/
def attachRedefinesLoop :
    Nat → DefineDefinition → List RedefineDefinition → Nat →
    Option (DefineDefinition × List RedefineDefinition)
  | 0, d, redefines_list, _ => some (d, redefines_list)
  | gas + 1, d, redefines_list, i =>
    match redefines_list[i]? with
    | none => none
    | some r =>
      if d.name == r.name then
        attachRedefinesLoop gas { d with redefinition := some r } (swapRemove redefines_list i) (i + 1)
      else
        attachRedefinesLoop gas d redefines_list (i + 1)

/-- Attach redefines to every define of one file, in order, threading the
pending redefine list. -/
def attachDefines (redefines_list : List RedefineDefinition) :
    List DefineDefinition → Option (List DefineDefinition × List RedefineDefinition)
  | [] => some ([], redefines_list)
  | d :: rest =>
    match attachRedefinesLoop redefines_list.length d redefines_list 0 with
    | none => none
    | some (d', redefines_list') =>
      match attachDefines redefines_list' rest with
      | none => none
      | some (rest', redefines_list'') => some (d' :: rest', redefines_list'')

/-- The inner `for user_define in &defines_list` loop resolving one array
count: on a name match the embedded definition's value is overwritten with
the define's value (or its attached redefinition's), and a non
positive-integer value aborts with `InvalidNumericValue`.  The loop does
not break after a match. -/
def resolveArrayCount (defines_list : List DefineDefinition)
    (definition : DefineDefinition) : Except RuneParserError DefineDefinition :=
  match defines_list with
  | [] => .ok definition
  | user_define :: rest =>
    if user_define.name == definition.name then
      match (match user_define.redefinition with
             | none => user_define.value
             | some redefine => redefine.value) with
      | .numericLiteral (.positiveInteger v s) =>
        resolveArrayCount rest { definition with value := .numericLiteral (.positiveInteger v s) }
      | _ => .error .InvalidNumericValue
    else
      resolveArrayCount rest definition

/-- Resolve one message field: only array fields whose element count is a
user definition are touched. -/
def resolveMessageField (defines_list : List DefineDefinition) :
    MessageField → Except RuneParserError MessageField
  | .mk identifier (.array (.mk data_type (.userDefinition definition))) index comment =>
    match resolveArrayCount defines_list definition with
    | .error e => .error e
    | .ok definition' =>
      .ok (.mk identifier (.array (.mk data_type (.userDefinition definition'))) index comment)
  | field => .ok field

/-- Resolve every array field of one message. -/
def resolveMessage (defines_list : List DefineDefinition) (m : MessageDefinition) :
    Except RuneParserError MessageDefinition :=
  match m with
  | .mk name fields reserved_indexes comment orphan_comments =>
    match fields.mapM (resolveMessageField defines_list) with
    | .error e => .error e
    | .ok fields' => .ok (.mk name fields' reserved_indexes comment orphan_comments)

/-- The per-file body of `parse_define_statements` (attach redefines to
the file's defines, then resolve array counts in the file's messages —
and only in its messages; structs are not visited), threaded over the file
list. -/
def processDefineFiles (defines_list : List DefineDefinition)
    (redefines_list : List RedefineDefinition) :
    List RuneFileDescription →
    Option (Except RuneParserError (List RuneFileDescription))
  | [] => some (.ok [])
  | file :: rest =>
    match attachDefines redefines_list file.definitions.defines with
    | none => none
    | some (defines', redefines_list') =>
      match file.definitions.messages.mapM (resolveMessage defines_list) with
      | .error e => some (.error e)
      | .ok messages' =>
        match processDefineFiles defines_list redefines_list' rest with
        | none => none
        | some (.error e) => some (.error e)
        | some (.ok rest') =>
          some (.ok ({ file with
            definitions := { file.definitions with defines := defines', messages := messages' } } :: rest'))

/-- `parse_define_statements`: flatten defines and redefines across files
(from a clone taken before any mutation), reject duplicate names, then
attach redefines and resolve message array counts file by file.  The
resolution step reads the pre-attachment `defines_list` clone.  `none`
models a panic. -/
def parse_define_statements (files : List RuneFileDescription) :
    Option (Except RuneParserError (List RuneFileDescription)) :=
  let defines_list := (files.map (fun f => f.definitions.defines)).flatten
  let redefines_list := (files.map (fun f => f.definitions.redefines)).flatten
  if hasDuplicateDefineName defines_list then some (.error .MultipleDefinitions)
  else if hasDuplicateRedefineName redefines_list then some (.error .MultipleRedefinitions)
  else processDefineFiles defines_list redefines_list files

/-! ## Type Linker — `src/post_processing/process_user_definitions.rs`

The Rust resolution recursion has no depth bound (the spec's open question
notes it does not guard against type cycles), so the embedding carries a
`fuel` budget decremented at every recursive step; `none` models a
computation that would exceed that budget (the concrete inputs below stay
far under it), as well as any panic. -/

mutual

/-- `find_data_definition`: search bitfields, then enums, then structs
(cloning and recursively resolving direct user-typed members), then
messages (illegal use), file by file; no match at all is
`UndefinedIdentifier`. -/
def find_data_definition : Nat → String → List RuneFileDescription →
    Option (Except RuneParserError UserDefinitionLink)
  | 0, _, _ => none
  | fuel + 1, identifier, definitions =>
    scanFilesData fuel identifier definitions definitions

/-- The `for file in definitions` scan of `find_data_definition`. -/
def scanFilesData : Nat → String → List RuneFileDescription →
    List RuneFileDescription → Option (Except RuneParserError UserDefinitionLink)
  | 0, _, _, _ => none
  | fuel + 1, identifier, definitions, files =>
    match files with
    | [] => some (.error .UndefinedIdentifier)
    | file :: rest =>
      match file.definitions.bitfields.find? (fun b => identifier == b.name) with
      | some b => some (.ok (.bitfieldLink b))
      | none =>
        match file.definitions.enums.find? (fun e => identifier == e.name) with
        | some e => some (.ok (.enumLink e))
        | none =>
          match file.definitions.structs.find? (fun s => identifier == s.name) with
          | some (.mk sname smembers sreserved scomment sorphans) =>
            match resolveClonedMembers fuel definitions smembers with
            | none => none
            | some (.error e) => some (.error e)
            | some (.ok members') =>
              some (.ok (.structLink (.mk sname members' sreserved scomment sorphans)))
          | none =>
            match file.definitions.messages.find? (fun m => identifier == m.name) with
            | some _ => some (.error .InvalidTypeUse)
            | none => scanFilesData fuel identifier definitions rest

/-- The member loop inside the struct-clone branch of
`find_data_definition`: only members whose type is directly
`MemberType::UserDefined` are recursively resolved — array members are
not touched. -/
def resolveClonedMembers : Nat → List RuneFileDescription →
    List StructMember → Option (Except RuneParserError (List StructMember))
  | 0, _, _ => none
  | fuel + 1, definitions, members =>
    match members with
    | [] => some (.ok [])
    | .mk identifier (.userDefined name _) index comment :: rest =>
      match find_data_definition fuel name definitions with
      | none => none
      | some (.error e) => some (.error e)
      | some (.ok link) =>
        match resolveClonedMembers fuel definitions rest with
        | none => none
        | some (.error e) => some (.error e)
        | some (.ok rest') =>
          some (.ok (.mk identifier (.userDefined name link) index comment :: rest'))
    | member :: rest =>
      match resolveClonedMembers fuel definitions rest with
      | none => none
      | some (.error e) => some (.error e)
      | some (.ok rest') => some (.ok (member :: rest'))

/-- `find_field_definition`: search messages across all files (cloning and
recursively resolving direct user-typed fields), falling back to
`find_data_definition`. -/
def find_field_definition : Nat → String → List RuneFileDescription →
    Option (Except RuneParserError UserDefinitionLink)
  | 0, _, _ => none
  | fuel + 1, identifier, definitions =>
    scanFilesField fuel identifier definitions definitions

/-- The `for file in definitions` scan of `find_field_definition`. -/
def scanFilesField : Nat → String → List RuneFileDescription →
    List RuneFileDescription → Option (Except RuneParserError UserDefinitionLink)
  | 0, _, _, _ => none
  | fuel + 1, identifier, definitions, files =>
    match files with
    | [] => find_data_definition fuel identifier definitions
    | file :: rest =>
      match file.definitions.messages.find? (fun m => identifier == m.name) with
      | some (.mk mname mfields mreserved mcomment morphans) =>
        match resolveClonedFields fuel definitions mfields with
        | none => none
        | some (.error e) => some (.error e)
        | some (.ok fields') =>
          some (.ok (.messageLink (.mk mname fields' mreserved mcomment morphans)))
      | none => scanFilesField fuel identifier definitions rest

/-- The field loop inside the message-clone branch of
`find_field_definition`: only fields whose type is directly
`FieldType::UserDefined` are recursively resolved. -/
def resolveClonedFields : Nat → List RuneFileDescription →
    List MessageField → Option (Except RuneParserError (List MessageField))
  | 0, _, _ => none
  | fuel + 1, definitions, fields =>
    match fields with
    | [] => some (.ok [])
    | .mk identifier (.userDefined name _) index comment :: rest =>
      match find_field_definition fuel name definitions with
      | none => none
      | some (.error e) => some (.error e)
      | some (.ok link) =>
        match resolveClonedFields fuel definitions rest with
        | none => none
        | some (.error e) => some (.error e)
        | some (.ok rest') =>
          some (.ok (.mk identifier (.userDefined name link) index comment :: rest'))
    | field :: rest =>
      match resolveClonedFields fuel definitions rest with
      | none => none
      | some (.error e) => some (.error e)
      | some (.ok rest') => some (.ok (field :: rest'))

end

/-- The per-field match of `link_user_definitions` for message fields:
arrays with a user-defined element type and direct user-defined fields
are resolved against the immutable snapshot; an `Empty` field aborts. -/
def linkMessageField (fuel : Nat) (immutable_reference : List RuneFileDescription) :
    MessageField → Option (Except RuneParserError MessageField)
  | .mk identifier (.array (.mk (.userDefined name _) element_count)) index comment =>
    match find_data_definition fuel name immutable_reference with
    | none => none
    | some (.error e) => some (.error e)
    | some (.ok link) =>
      some (.ok (.mk identifier (.array (.mk (.userDefined name link) element_count)) index comment))
  | .mk _ .empty _ _ => some (.error .EmptyMessageField)
  | .mk identifier (.userDefined name _) index comment =>
    match find_field_definition fuel name immutable_reference with
    | none => none
    | some (.error e) => some (.error e)
    | some (.ok link) => some (.ok (.mk identifier (.userDefined name link) index comment))
  | field => some (.ok field)

/-- Link every field of a message's field list. -/
def linkMessageFields (fuel : Nat) (immutable_reference : List RuneFileDescription) :
    List MessageField → Option (Except RuneParserError (List MessageField))
  | [] => some (.ok [])
  | field :: rest =>
    match linkMessageField fuel immutable_reference field with
    | none => none
    | some (.error e) => some (.error e)
    | some (.ok field') =>
      match linkMessageFields fuel immutable_reference rest with
      | none => none
      | some (.error e) => some (.error e)
      | some (.ok rest') => some (.ok (field' :: rest'))

/-- The per-member match of `link_user_definitions` for struct members:
both arrays of user-defined element type and direct user-defined members
resolve through `find_data_definition`. -/
def linkStructMember (fuel : Nat) (immutable_reference : List RuneFileDescription) :
    StructMember → Option (Except RuneParserError StructMember)
  | .mk identifier (.array (.mk (.userDefined name _) element_count)) index comment =>
    match find_data_definition fuel name immutable_reference with
    | none => none
    | some (.error e) => some (.error e)
    | some (.ok link) =>
      some (.ok (.mk identifier (.array (.mk (.userDefined name link) element_count)) index comment))
  | .mk identifier (.userDefined name _) index comment =>
    match find_data_definition fuel name immutable_reference with
    | none => none
    | some (.error e) => some (.error e)
    | some (.ok link) => some (.ok (.mk identifier (.userDefined name link) index comment))
  | member => some (.ok member)

/-- Link every member of a struct's member list. -/
def linkStructMembers (fuel : Nat) (immutable_reference : List RuneFileDescription) :
    List StructMember → Option (Except RuneParserError (List StructMember))
  | [] => some (.ok [])
  | member :: rest =>
    match linkStructMember fuel immutable_reference member with
    | none => none
    | some (.error e) => some (.error e)
    | some (.ok member') =>
      match linkStructMembers fuel immutable_reference rest with
      | none => none
      | some (.error e) => some (.error e)
      | some (.ok rest') => some (.ok (member' :: rest'))

/-- Link all messages of one file. -/
def linkMessages (fuel : Nat) (immutable_reference : List RuneFileDescription) :
    List MessageDefinition → Option (Except RuneParserError (List MessageDefinition))
  | [] => some (.ok [])
  | .mk name fields reserved comment orphans :: rest =>
    match linkMessageFields fuel immutable_reference fields with
    | none => none
    | some (.error e) => some (.error e)
    | some (.ok fields') =>
      match linkMessages fuel immutable_reference rest with
      | none => none
      | some (.error e) => some (.error e)
      | some (.ok rest') => some (.ok (.mk name fields' reserved comment orphans :: rest'))

/-- Link all structs of one file. -/
def linkStructs (fuel : Nat) (immutable_reference : List RuneFileDescription) :
    List StructDefinition → Option (Except RuneParserError (List StructDefinition))
  | [] => some (.ok [])
  | .mk name members reserved comment orphans :: rest =>
    match linkStructMembers fuel immutable_reference members with
    | none => none
    | some (.error e) => some (.error e)
    | some (.ok members') =>
      match linkStructs fuel immutable_reference rest with
      | none => none
      | some (.error e) => some (.error e)
      | some (.ok rest') => some (.ok (.mk name members' reserved comment orphans :: rest'))

/-- The `for file in definitions` loop of `link_user_definitions`. -/
def linkFiles (fuel : Nat) (immutable_reference : List RuneFileDescription) :
    List RuneFileDescription → Option (Except RuneParserError (List RuneFileDescription))
  | [] => some (.ok [])
  | file :: rest =>
    match linkMessages fuel immutable_reference file.definitions.messages with
    | none => none
    | some (.error e) => some (.error e)
    | some (.ok messages') =>
      match linkStructs fuel immutable_reference file.definitions.structs with
      | none => none
      | some (.error e) => some (.error e)
      | some (.ok structs') =>
        match linkFiles fuel immutable_reference rest with
        | none => none
        | some (.error e) => some (.error e)
        | some (.ok rest') =>
          some (.ok ({ file with
            definitions := { file.definitions with messages := messages', structs := structs' } } :: rest'))

/-- `link_user_definitions`: resolve every user-type reference in message
fields and struct members against the immutable clone of the input taken
at entry (`let immutable_reference = definitions.clone()`), writing the
links into the live copy. -/
def link_user_definitions (fuel : Nat) (files : List RuneFileDescription) :
    Option (Except RuneParserError (List RuneFileDescription)) :=
  linkFiles fuel files files

/-! ## Extension Merger — `src/post_processing/process_extensions.rs`

The embedding models execution in silent mode (`enable_silent`), in which
the `error!`/`info!` macros do not evaluate their format arguments, so
index expressions appearing only inside log calls are not evaluated. -/

/-- `BitfieldExtension` (origin files plus the fragment). -/
structure BitfieldExtension where
  files : List String
  definition : BitfieldDefinition

/-- `EnumExtension`. -/
structure EnumExtension where
  files : List String
  definition : EnumDefinition

/-- `MessageExtension`. -/
structure MessageExtension where
  files : List String
  definition : MessageDefinition

/-- `StructExtension`. -/
structure StructExtension where
  files : List String
  definition : StructDefinition

/-- The collection phase of `parse_extensions`: gather every fragment
across files (per kind, in file order), tagging each with its origin
file name. -/
def collectExtensions (files : List RuneFileDescription) :
    List BitfieldExtension × List EnumExtension × List MessageExtension × List StructExtension :=
  match files with
  | [] => ([], [], [], [])
  | file :: rest =>
    let (b, e, m, s) := collectExtensions rest
    if file.definitions.extensions.is_empty then (b, e, m, s)
    else
      (file.definitions.extensions.bitfields.map
          (fun d => { files := [file.name], definition := d }) ++ b,
       file.definitions.extensions.enums.map
          (fun d => { files := [file.name], definition := d }) ++ e,
       file.definitions.extensions.messages.map
          (fun d => { files := [file.name], definition := d }) ++ m,
       file.definitions.extensions.structs.map
          (fun d => { files := [file.name], definition := d }) ++ s)

/-- Inner `while z < list_size` loop of the bitfield merge.  `gas` is
exactly `list_size - z`; the list shrinks together with `list_size`, so
`size` is recovered as `z` when the loop exits. -/
def bitfieldMergeInner :
    Nat → Nat → Nat → List BitfieldExtension →
    Option (Except RuneParserError (Nat × List BitfieldExtension))
  | 0, _, z, exts => some (.ok (z, exts))
  | gas + 1, i, z, exts =>
    match exts[i]?, exts[z]? with
    | some ei, some ez =>
      if ei.definition.name == ez.definition.name then
        if ei.definition.backing_type ≠ ez.definition.backing_type then
          some (.error .ExtensionMismatch)
        else if ez.definition.members.any (fun zm =>
            ei.definition.members.any (fun im => zm.identifier == im.identifier)) then
          some (.error .IndexCollision)
        else
          let merged : BitfieldExtension :=
            { files := ei.files ++ ez.files,
              definition := { ei.definition with
                members := ei.definition.members ++ ez.definition.members } }
          bitfieldMergeInner gas i z (swapRemove (exts.set i merged) z)
      else
        bitfieldMergeInner gas i (z + 1) exts
    | _, _ => none

/-- Outer `while i < list_size - 1` loop of the bitfield merge.  `gas`
starts at the initial list size, an upper bound on the iteration count;
when it reaches zero the loop condition is already false. -/
def bitfieldMergeOuter :
    Nat → Nat → Nat → List BitfieldExtension →
    Option (Except RuneParserError (List BitfieldExtension))
  | 0, _, _, exts => some (.ok exts)
  | gas + 1, i, size, exts =>
    if i < size - 1 then
      match bitfieldMergeInner (size - (i + 1)) i (i + 1) exts with
      | none => none
      | some (.error e) => some (.error e)
      | some (.ok (size', exts')) => bitfieldMergeOuter gas (i + 1) size' exts'
    else some (.ok exts)

/-- The `if bitfield_extensions.len() > 1` merge of bitfield fragments. -/
def mergeBitfieldExtensions (exts : List BitfieldExtension) :
    Option (Except RuneParserError (List BitfieldExtension)) :=
  if exts.length > 1 then bitfieldMergeOuter exts.length 0 exts.length exts
  else some (.ok exts)

/-- Inner loop of the enum merge (same shape as the bitfield one). -/
def enumMergeInner :
    Nat → Nat → Nat → List EnumExtension →
    Option (Except RuneParserError (Nat × List EnumExtension))
  | 0, _, z, exts => some (.ok (z, exts))
  | gas + 1, i, z, exts =>
    match exts[i]?, exts[z]? with
    | some ei, some ez =>
      if ei.definition.name == ez.definition.name then
        if ei.definition.backing_type ≠ ez.definition.backing_type then
          some (.error .ExtensionMismatch)
        else if ez.definition.members.any (fun zm =>
            ei.definition.members.any (fun im => zm.identifier == im.identifier)) then
          some (.error .IndexCollision)
        else
          let merged : EnumExtension :=
            { files := ei.files ++ ez.files,
              definition := { ei.definition with
                members := ei.definition.members ++ ez.definition.members } }
          enumMergeInner gas i z (swapRemove (exts.set i merged) z)
      else
        enumMergeInner gas i (z + 1) exts
    | _, _ => none

/-- Outer loop of the enum merge. -/
def enumMergeOuter :
    Nat → Nat → Nat → List EnumExtension →
    Option (Except RuneParserError (List EnumExtension))
  | 0, _, _, exts => some (.ok exts)
  | gas + 1, i, size, exts =>
    if i < size - 1 then
      match enumMergeInner (size - (i + 1)) i (i + 1) exts with
      | none => none
      | some (.error e) => some (.error e)
      | some (.ok (size', exts')) => enumMergeOuter gas (i + 1) size' exts'
    else some (.ok exts)

/-- The `if enum_extensions.len() > 1` merge of enum fragments. -/
def mergeEnumExtensions (exts : List EnumExtension) :
    Option (Except RuneParserError (List EnumExtension)) :=
  if exts.length > 1 then enumMergeOuter exts.length 0 exts.length exts
  else some (.ok exts)

/-- Inner loop of the message merge.  The name and field-collision checks
read `message_extensions`, but the merge body appends and removes on
`struct_extensions` (`struct_extensions[z].files`,
`struct_extensions[i].files`, `struct_extensions[z].definition.members`,
`struct_extensions[i].definition.members`, `swap_remove(z)` on the struct
list), so those accesses can fall outside the struct list — `none`. -/
def messageMergeInner :
    Nat → Nat → Nat → List MessageExtension → List StructExtension →
    Option (Except RuneParserError (Nat × List MessageExtension × List StructExtension))
  | 0, _, z, msgs, structs => some (.ok (z, msgs, structs))
  | gas + 1, i, z, msgs, structs =>
    match msgs[i]?, msgs[z]? with
    | some mi, some mz =>
      if mi.definition.name == mz.definition.name then
        if mz.definition.fields.any (fun zf =>
            mi.definition.fields.any (fun fi => zf.identifier == fi.identifier)) then
          some (.error .IndexCollision)
        else
          match structs[z]?, structs[i]? with
          | some sz, some si =>
            let merged : StructExtension :=
              { files := si.files ++ sz.files,
                definition :=
                  match si.definition with
                  | .mk name members reserved comment orphans =>
                    .mk name (members ++ sz.definition.members) reserved comment orphans }
            messageMergeInner gas i z msgs (swapRemove (structs.set i merged) z)
          | _, _ => none
      else
        messageMergeInner gas i (z + 1) msgs structs
    | _, _ => none

/-- Outer loop of the message merge (`list_size` tracks the counter the
code decrements even though the message list itself never shrinks). -/
def messageMergeOuter :
    Nat → Nat → Nat → List MessageExtension → List StructExtension →
    Option (Except RuneParserError (List MessageExtension × List StructExtension))
  | 0, _, _, msgs, structs => some (.ok (msgs, structs))
  | gas + 1, i, size, msgs, structs =>
    if i < size - 1 then
      match messageMergeInner (size - (i + 1)) i (i + 1) msgs structs with
      | none => none
      | some (.error e) => some (.error e)
      | some (.ok (size', msgs', structs')) => messageMergeOuter gas (i + 1) size' msgs' structs'
    else some (.ok (msgs, structs))

/-- The `if message_extensions.len() > 1` merge of message fragments. -/
def mergeMessageExtensions (msgs : List MessageExtension) (structs : List StructExtension) :
    Option (Except RuneParserError (List MessageExtension × List StructExtension)) :=
  if msgs.length > 1 then messageMergeOuter msgs.length 0 msgs.length msgs structs
  else some (.ok (msgs, structs))

/-- Inner loop of the struct merge: mirror image of the message one — the
checks read `struct_extensions`, the merge body appends and removes on
`message_extensions`. -/
def structMergeInner :
    Nat → Nat → Nat → List StructExtension → List MessageExtension →
    Option (Except RuneParserError (Nat × List StructExtension × List MessageExtension))
  | 0, _, z, structs, msgs => some (.ok (z, structs, msgs))
  | gas + 1, i, z, structs, msgs =>
    match structs[i]?, structs[z]? with
    | some si, some sz =>
      if si.definition.name == sz.definition.name then
        if sz.definition.members.any (fun zm =>
            si.definition.members.any (fun im => zm.identifier == im.identifier)) then
          some (.error .IndexCollision)
        else
          match msgs[z]?, msgs[i]? with
          | some mz, some mi =>
            let merged : MessageExtension :=
              { files := mi.files ++ mz.files,
                definition :=
                  match mi.definition with
                  | .mk name fields reserved comment orphans =>
                    .mk name (fields ++ mz.definition.fields) reserved comment orphans }
            structMergeInner gas i z structs (swapRemove (msgs.set i merged) z)
          | _, _ => none
      else
        structMergeInner gas i (z + 1) structs msgs
    | _, _ => none

/-- Outer loop of the struct merge. -/
def structMergeOuter :
    Nat → Nat → Nat → List StructExtension → List MessageExtension →
    Option (Except RuneParserError (List StructExtension × List MessageExtension))
  | 0, _, _, structs, msgs => some (.ok (structs, msgs))
  | gas + 1, i, size, structs, msgs =>
    if i < size - 1 then
      match structMergeInner (size - (i + 1)) i (i + 1) structs msgs with
      | none => none
      | some (.error e) => some (.error e)
      | some (.ok (size', structs', msgs')) => structMergeOuter gas (i + 1) size' structs' msgs'
    else some (.ok (structs, msgs))

/-- The `if struct_extensions.len() > 1` merge of struct fragments. -/
def mergeStructExtensions (structs : List StructExtension) (msgs : List MessageExtension) :
    Option (Except RuneParserError (List StructExtension × List MessageExtension)) :=
  if structs.length > 1 then structMergeOuter structs.length 0 structs.length structs msgs
  else some (.ok (structs, msgs))

/-- Splice one bitfield extension into the matching declarations of one
declaration list; returns the updated list and the number of matches (the
include edges are appended once per matching declaration). -/
def appendBitfieldDefs (ext : BitfieldExtension) :
    List BitfieldDefinition → Except RuneParserError (List BitfieldDefinition × Nat)
  | [] => .ok ([], 0)
  | d :: rest =>
    if d.name == ext.definition.name then
      if d.backing_type ≠ ext.definition.backing_type then .error .ExtensionMismatch
      else if ext.definition.members.any (fun em =>
          d.members.any (fun dm => em.identifier == dm.identifier)) then
        .error .IndexCollision
      else
        match appendBitfieldDefs ext rest with
        | .error e => .error e
        | .ok (rest', n) =>
          .ok ({ d with members := d.members ++ ext.definition.members } :: rest', n + 1)
    else
      match appendBitfieldDefs ext rest with
      | .error e => .error e
      | .ok (rest', n) => .ok (d :: rest', n)

/-- Splice one enum extension into the matching declarations. -/
def appendEnumDefs (ext : EnumExtension) :
    List EnumDefinition → Except RuneParserError (List EnumDefinition × Nat)
  | [] => .ok ([], 0)
  | d :: rest =>
    if d.name == ext.definition.name then
      if d.backing_type ≠ ext.definition.backing_type then .error .ExtensionMismatch
      else if ext.definition.members.any (fun em =>
          d.members.any (fun dm => em.identifier == dm.identifier)) then
        .error .IndexCollision
      else
        match appendEnumDefs ext rest with
        | .error e => .error e
        | .ok (rest', n) =>
          .ok ({ d with members := d.members ++ ext.definition.members } :: rest', n + 1)
    else
      match appendEnumDefs ext rest with
      | .error e => .error e
      | .ok (rest', n) => .ok (d :: rest', n)

/-- Splice one message extension into the matching declarations (no
backing-type check for messages). -/
def appendMessageDefs (ext : MessageExtension) :
    List MessageDefinition → Except RuneParserError (List MessageDefinition × Nat)
  | [] => .ok ([], 0)
  | .mk name fields reserved comment orphans :: rest =>
    if name == ext.definition.name then
      if ext.definition.fields.any (fun ef =>
          fields.any (fun df => ef.identifier == df.identifier)) then
        .error .IndexCollision
      else
        match appendMessageDefs ext rest with
        | .error e => .error e
        | .ok (rest', n) =>
          .ok (.mk name (fields ++ ext.definition.fields) reserved comment orphans :: rest', n + 1)
    else
      match appendMessageDefs ext rest with
      | .error e => .error e
      | .ok (rest', n) => .ok (.mk name fields reserved comment orphans :: rest', n)

/-- Splice one struct extension into the matching declarations. -/
def appendStructDefs (ext : StructExtension) :
    List StructDefinition → Except RuneParserError (List StructDefinition × Nat)
  | [] => .ok ([], 0)
  | .mk name members reserved comment orphans :: rest =>
    if name == ext.definition.name then
      if ext.definition.members.any (fun em =>
          members.any (fun dm => em.identifier == dm.identifier)) then
        .error .IndexCollision
      else
        match appendStructDefs ext rest with
        | .error e => .error e
        | .ok (rest', n) =>
          .ok (.mk name (members ++ ext.definition.members) reserved comment orphans :: rest', n + 1)
    else
      match appendStructDefs ext rest with
      | .error e => .error e
      | .ok (rest', n) => .ok (.mk name members reserved comment orphans :: rest', n)

/-- The include edges added for one extension: one per contributing file,
repeated once per matching declaration in the target file. -/
def includeEdges (extFiles : List String) (matchCount : Nat) : List IncludeDefinition :=
  (List.replicate matchCount (extFiles.map (fun f => ({ file := f } : IncludeDefinition)))).flatten

/-- Apply one bitfield extension to every file. -/
def appendBitfieldToFiles (ext : BitfieldExtension) :
    List RuneFileDescription → Except RuneParserError (List RuneFileDescription)
  | [] => .ok []
  | file :: rest =>
    match appendBitfieldDefs ext file.definitions.bitfields with
    | .error e => .error e
    | .ok (bitfields', n) =>
      match appendBitfieldToFiles ext rest with
      | .error e => .error e
      | .ok rest' =>
        .ok ({ file with definitions := { file.definitions with
          bitfields := bitfields',
          includes := file.definitions.includes ++ includeEdges ext.files n } } :: rest')

/-- Apply one enum extension to every file. -/
def appendEnumToFiles (ext : EnumExtension) :
    List RuneFileDescription → Except RuneParserError (List RuneFileDescription)
  | [] => .ok []
  | file :: rest =>
    match appendEnumDefs ext file.definitions.enums with
    | .error e => .error e
    | .ok (enums', n) =>
      match appendEnumToFiles ext rest with
      | .error e => .error e
      | .ok rest' =>
        .ok ({ file with definitions := { file.definitions with
          enums := enums',
          includes := file.definitions.includes ++ includeEdges ext.files n } } :: rest')

/-- Apply one message extension to every file. -/
def appendMessageToFiles (ext : MessageExtension) :
    List RuneFileDescription → Except RuneParserError (List RuneFileDescription)
  | [] => .ok []
  | file :: rest =>
    match appendMessageDefs ext file.definitions.messages with
    | .error e => .error e
    | .ok (messages', n) =>
      match appendMessageToFiles ext rest with
      | .error e => .error e
      | .ok rest' =>
        .ok ({ file with definitions := { file.definitions with
          messages := messages',
          includes := file.definitions.includes ++ includeEdges ext.files n } } :: rest')

/-- Apply one struct extension to every file. -/
def appendStructToFiles (ext : StructExtension) :
    List RuneFileDescription → Except RuneParserError (List RuneFileDescription)
  | [] => .ok []
  | file :: rest =>
    match appendStructDefs ext file.definitions.structs with
    | .error e => .error e
    | .ok (structs', n) =>
      match appendStructToFiles ext rest with
      | .error e => .error e
      | .ok rest' =>
        .ok ({ file with definitions := { file.definitions with
          structs := structs',
          includes := file.definitions.includes ++ includeEdges ext.files n } } :: rest')

/-- Fold the append step over a list of bitfield extensions. -/
def appendBitfieldExtensions : List BitfieldExtension → List RuneFileDescription →
    Except RuneParserError (List RuneFileDescription)
  | [], files => .ok files
  | ext :: rest, files =>
    match appendBitfieldToFiles ext files with
    | .error e => .error e
    | .ok files' => appendBitfieldExtensions rest files'

/-- Fold the append step over a list of enum extensions. -/
def appendEnumExtensions : List EnumExtension → List RuneFileDescription →
    Except RuneParserError (List RuneFileDescription)
  | [], files => .ok files
  | ext :: rest, files =>
    match appendEnumToFiles ext files with
    | .error e => .error e
    | .ok files' => appendEnumExtensions rest files'

/-- Fold the append step over a list of message extensions. -/
def appendMessageExtensions : List MessageExtension → List RuneFileDescription →
    Except RuneParserError (List RuneFileDescription)
  | [], files => .ok files
  | ext :: rest, files =>
    match appendMessageToFiles ext files with
    | .error e => .error e
    | .ok files' => appendMessageExtensions rest files'

/-- Fold the append step over a list of struct extensions. -/
def appendStructExtensions : List StructExtension → List RuneFileDescription →
    Except RuneParserError (List RuneFileDescription)
  | [], files => .ok files
  | ext :: rest, files =>
    match appendStructToFiles ext files with
    | .error e => .error e
    | .ok files' => appendStructExtensions rest files'

/-- `parse_extensions`: collect fragments, run the four merge loops (the
message loop checks the message list but mutates the struct list, and the
struct loop mutates the message list, as in the source), then optionally
splice the surviving fragments into the original declarations. -/
def parse_extensions (files : List RuneFileDescription) (append_definitions : Bool) :
    Option (Except RuneParserError (List RuneFileDescription)) :=
  let (b, e, m, s) := collectExtensions files
  match mergeBitfieldExtensions b with
  | none => none
  | some (.error err) => some (.error err)
  | some (.ok b') =>
    match mergeEnumExtensions e with
    | none => none
    | some (.error err) => some (.error err)
    | some (.ok e') =>
      match mergeMessageExtensions m s with
      | none => none
      | some (.error err) => some (.error err)
      | some (.ok (m', s')) =>
        match mergeStructExtensions s' m' with
        | none => none
        | some (.error err) => some (.error err)
        | some (.ok (s'', m'')) =>
          if append_definitions then
            match appendBitfieldExtensions b' files with
            | .error err => some (.error err)
            | .ok files1 =>
              match appendEnumExtensions e' files1 with
              | .error err => some (.error err)
              | .ok files2 =>
                match appendMessageExtensions m'' files2 with
                | .error err => some (.error err)
                | .ok files3 =>
                  match appendStructExtensions s'' files3 with
                  | .error err => some (.error err)
                  | .ok files4 => some (.ok files4)
          else some (.ok files)

/-! ## Size Estimator — `src/types/messages.rs`, `src/types/arrays.rs` -/

/-- `src/types/messages.rs` `optimal_encoded_data_size`: a zero payload
contributes nothing, payloads of 1, 2, 4 or 8 bytes get only the 1-byte
header, and every other payload additionally carries a 1-, 2- or 4-byte
length header chosen by the half-open `u8`/`u16`/`u32` ranges. -/
def optimal_encoded_data_size (size : Nat) : Except RuneParserError Nat :=
  if size = 0 then .ok 0
  else if size = 1 ∨ size = 2 ∨ size = 4 ∨ size = 8 then .ok (1 + size)
  else if u8RangeContains size then .ok (1 + 1 + size)
  else if u16RangeContains size then .ok (1 + 2 + size)
  else if u32RangeContains size then .ok (1 + 4 + size)
  else .error .InvalidEncodedSize

/-- The `largest_index` scan of `worst_case_encoded_size`. -/
def largestIndex : List MessageField → Nat
  | [] => 0
  | field :: rest => max (largestIndex rest) field.index.value

mutual

/-- `src/types/arrays.rs` `ArrayType::size`. -/
def ArrayType.size : ArrayType → Except RuneParserError Nat
  | .primitive primitive => .ok primitive.encoded_max_data_size
  | .userDefined _ link =>
    match link with
    | .noLink => .error .UndefinedIdentifier
    | .enumLink enum_link => .ok enum_link.backing_type.encoded_max_data_size
    | .bitfieldLink bitfield_link => .ok bitfield_link.backing_type.encoded_max_data_size
    | .messageLink _ => .error .InvalidArrayType
    | .structLink struct_link => StructDefinition.flat_size struct_link

/-- `src/types/arrays.rs` `Array::byte_size` (`u64` multiplication, hence
the wrap). -/
def Array.byte_size : Array → Except RuneParserError Nat
  | .mk data_type element_count =>
    match ArrayType.size data_type with
    | .error e => .error e
    | .ok s =>
      match element_count.value with
      | .error e => .error e
      | .ok c => .ok (wrap64 (s * c))

/-- Modelled from the spec: `StructDefinition::flat_size` (its declaring
module is not under `src/`; `src/types/messages.rs` and
`src/types/arrays.rs` call it).  Per the spec it is the sum, in
declaration order, of each member's fixed width — primitive width, nested
struct's flat size, backing width for enum/bitfield members, array width ×
count — and fails if a member is a message (or has no link). -/
def StructDefinition.flat_size : StructDefinition → Except RuneParserError Nat
  | .mk _ members _ _ _ => flatMembersLoop members 0

/-- Member loop of the modelled `flat_size`. -/
def flatMembersLoop : List StructMember → Nat → Except RuneParserError Nat
  | [], total => .ok total
  | .mk _ data_type _ _ :: rest, total =>
    match data_type with
    | .primitive primitive =>
      flatMembersLoop rest (wrap64 (total + primitive.encoded_max_data_size))
    | .array array =>
      match Array.byte_size array with
      | .error e => .error e
      | .ok s => flatMembersLoop rest (wrap64 (total + s))
    | .userDefined _ link =>
      match link with
      | .noLink => .error .UndefinedIdentifier
      | .enumLink enum_link =>
        flatMembersLoop rest (wrap64 (total + enum_link.backing_type.encoded_max_data_size))
      | .bitfieldLink bitfield_link =>
        flatMembersLoop rest (wrap64 (total + bitfield_link.backing_type.encoded_max_data_size))
      | .messageLink _ => .error .InvalidStructMemberType
      | .structLink struct_link =>
        match StructDefinition.flat_size struct_link with
        | .error e => .error e
        | .ok s => flatMembersLoop rest (wrap64 (total + s))

/-- `src/types/messages.rs` `MessageField::full_encoded_size`: the payload
size of one field; `ok none` means a sub-message whose worst case is
undecidable. -/
def MessageField.full_encoded_size : MessageField → Bool → Except RuneParserError (Option Nat)
  | .mk _ data_type _ _, worst_case =>
    match data_type with
    | .array array =>
      match Array.byte_size array with
      | .error e => .error e
      | .ok s => .ok (some s)
    | .empty => .ok (some 0)
    | .primitive primitive => .ok (some primitive.encoded_max_data_size)
    | .userDefined _ link =>
      match link with
      | .noLink => .error .UndefinedIdentifier
      | .bitfieldLink bitfield_definition =>
        .ok (some bitfield_definition.backing_type.encoded_max_data_size)
      | .enumLink enum_definition =>
        .ok (some enum_definition.backing_type.encoded_max_data_size)
      | .messageLink message_link =>
        match worst_case with
        | false =>
          match MessageDefinition.optimal_full_encoded_size message_link with
          | .error e => .error e
          | .ok v => .ok (some v)
        | true => MessageDefinition.worst_case_encoded_size message_link
      | .structLink struct_definition =>
        match StructDefinition.flat_size struct_definition with
        | .error e => .error e
        | .ok s => .ok (some s)
termination_by field _ => (sizeOf field, 0)

/-- `src/types/messages.rs` `MessageDefinition::optimal_full_encoded_size`
(the field loop accumulating `total_size`). -/
def MessageDefinition.optimal_full_encoded_size :
    MessageDefinition → Except RuneParserError Nat
  | .mk _ fields _ _ _ => optimalFieldsLoop fields 0
termination_by m => (sizeOf m, 0)

/-- Field loop of `optimal_full_encoded_size`.  The `ok none` arm models
the `value.unwrap()` in the source; it is unreachable because
`full_encoded_size` with `worst_case = false` never produces `Ok(None)`
(lemma `full_encoded_size_false_isSome`). -/
def optimalFieldsLoop : List MessageField → Nat → Except RuneParserError Nat
  | [], total => .ok total
  | field :: rest, total =>
    match MessageField.full_encoded_size field false with
    | .error e => .error e
    | .ok none => .error .EmptyMessageField
    | .ok (some value) =>
      match optimal_encoded_data_size value with
      | .error e => .error e
      | .ok contribution => optimalFieldsLoop rest (wrap64 (total + contribution))
termination_by fields _ => (sizeOf fields, 0)

/-- `src/types/messages.rs` `MessageDefinition::worst_case_encoded_size`:
scan indexes `0 ..= largest_index`; a missing index or an undecidable
sub-message yields `ok none`. -/
def MessageDefinition.worst_case_encoded_size :
    MessageDefinition → Except RuneParserError (Option Nat)
  | .mk _ fields _ _ _ =>
    worstLoop fields (wrap64 (largestIndex fields + 1)) 0 0
termination_by m => (sizeOf m, 0)

/-- Index loop of `worst_case_encoded_size`; `gas` is the remaining
iteration count `(largest_index + 1) - i`. -/
def worstLoop (fields : List MessageField) :
    Nat → Nat → Nat → Except RuneParserError (Option Nat)
  | 0, _, total => .ok (some total)
  | gas + 1, i, total =>
    match h : fields.find? (fun field => field.index.value == i) with
    | none => .ok none
    | some field =>
      match MessageField.full_encoded_size field true with
      | .error e => .error e
      | .ok none => .ok none
      | .ok (some value) => worstLoop fields gas (i + 1) (wrap64 (total + (5 + value)))
termination_by gas _ _ => (sizeOf fields, gas)
decreasing_by
· exact Prod.Lex.left _ _ (List.sizeOf_lt_of_mem (List.mem_of_find?_eq_some h))
· exact Prod.Lex.right _ (Nat.lt_succ_self gas)

end

/-! ## Validator — `src/validation.rs`

`validate_parsed_files` runs, in order: name uniqueness, bitfield checks,
enum checks, struct checks.  It never visits messages.  The member/field
vocabulary of `src/validation.rs` (`bit_slot`, `field_slot`,
`reserved_slots`) maps onto the declaration types above as `index` and
`reserved_indexes`; field-index equality is the by-value equality of
`FieldIndex::eq`. -/

/-- The `for i in 0..names_list.len() - 1` collision scan of
`validate_names`; `gas` is the remaining iteration count. -/
def validateNamesLoop : Nat → Nat → List String → Option (Except RuneParserError Unit)
  | 0, _, _ => some (.ok ())
  | gas + 1, i, names =>
    match names[i]? with
    | none => none
    | some n =>
      if (names.drop (i + 1)).contains n then some (.error .NameCollision)
      else validateNamesLoop gas (i + 1) names

/-- `validate_names`: collect the names of all bitfields, defines, enums
and structs (messages are not collected) and scan for duplicates.  On an
empty name list the Rust expression `names_list.len() - 1` underflows the
`usize` (a panic in a debug build; in a release build the wrapped bound
then drives `names_list[1..]` out of bounds) — `none`. -/
def validate_names (files : List RuneFileDescription) :
    Option (Except RuneParserError Unit) :=
  let names :=
    (files.map (fun file =>
      file.definitions.bitfields.map (fun d => d.name) ++
      file.definitions.defines.map (fun d => d.name) ++
      file.definitions.enums.map (fun d => d.name) ++
      file.definitions.structs.map (fun d => d.name))).flatten
  if names.isEmpty then none
  else validateNamesLoop (names.length - 1) 0 names

/-- `FieldType::validate_bitfield_size` on the backing primitive: total
member bits must fit the backing width; non-integer backings are
invalid. -/
def Primitive.validate_bitfield_size (p : Primitive) (bitfield_size : Nat) : Bool :=
  match p with
  | .char | .u8 | .i8 => bitfield_size ≤ 8
  | .u16 | .i16 => bitfield_size ≤ 16
  | .u32 | .i32 => bitfield_size ≤ 32
  | .u64 | .i64 => bitfield_size ≤ 64
  | _ => false

/-- Member loop of `validate_bitfields`: accumulate the total bit size and
check slot collisions, reserved slots and identifier collisions, in that
order. -/
def validateBitfieldMembers (d : BitfieldDefinition) :
    List BitfieldMember → Nat → Except RuneParserError Nat
  | [], total => .ok total
  | m :: rest, total =>
    let total' := wrap64 (total + m.size.absolute)
    if 1 < (d.members.filter (fun x => x.index == m.index)).length then
      .error .IndexCollision
    else if d.reserved_indexes.contains m.index then
      .error .UseOfReservedIndex
    else if 1 < (d.members.filter (fun x => x.identifier == m.identifier)).length then
      .error .IdentifierCollision
    else validateBitfieldMembers d rest total'

/-- `validate_bitfields` over all files. -/
def validate_bitfields (files : List RuneFileDescription) : Except RuneParserError Unit :=
  match files with
  | [] => .ok ()
  | file :: rest =>
    match validateBitfieldList file.definitions.bitfields with
    | .error e => .error e
    | .ok () => validate_bitfields rest
where
  /-- The per-file bitfield loop. -/
  validateBitfieldList : List BitfieldDefinition → Except RuneParserError Unit
    | [] => .ok ()
    | d :: rest =>
      match validateBitfieldMembers d d.members 0 with
      | .error e => .error e
      | .ok total =>
        if ¬ d.backing_type.validate_bitfield_size total then
          .error .InvalidTotalBitfieldSize
        else validateBitfieldList rest

/-- Member loop of `validate_enums`: duplicate values (by the
cross-variant numeric equality), reserved values, duplicate identifiers —
no range check against the backing type is performed here (the source
comments that it was done at parse time). -/
def validateEnumMembers (d : EnumDefinition) :
    List EnumMember → Except RuneParserError Unit
  | [] => .ok ()
  | m :: rest =>
    if 1 < (d.members.filter (fun x => NumericLiteral.beq x.value m.value)).length then
      .error .ValueCollision
    else if d.reserved_values.any (fun r => NumericLiteral.beq r m.value) then
      .error .UseOfReservedIndex
    else if 1 < (d.members.filter (fun x => x.identifier == m.identifier)).length then
      .error .IdentifierCollision
    else validateEnumMembers d rest

/-- `validate_enums` over all files. -/
def validate_enums (files : List RuneFileDescription) : Except RuneParserError Unit :=
  match files with
  | [] => .ok ()
  | file :: rest =>
    match validateEnumList file.definitions.enums with
    | .error e => .error e
    | .ok () => validate_enums rest
where
  /-- The per-file enum loop. -/
  validateEnumList : List EnumDefinition → Except RuneParserError Unit
    | [] => .ok ()
    | d :: rest =>
      match validateEnumMembers d d.members with
      | .error e => .error e
      | .ok () => validateEnumList rest

/-- Member loop of `validate_structs`: index collisions (by resolved
value, so the verifier alias collides with an explicit 0), reserved
indexes, duplicate identifiers, in that order. -/
def validateStructMembers (d : StructDefinition) :
    List StructMember → Except RuneParserError Unit
  | [] => .ok ()
  | m :: rest =>
    if 1 < (d.members.filter (fun x => x.index.value == m.index.value)).length then
      .error .IndexCollision
    else if d.reserved_indexes.any (fun r => r.value == m.index.value) then
      .error .UseOfReservedIndex
    else if 1 < (d.members.filter (fun x => x.identifier == m.identifier)).length then
      .error .IdentifierCollision
    else validateStructMembers d rest

/-- `validate_structs` over all files: the verifier-count pre-check
(more than one verifier-aliased member is an `IndexCollision`), then the
member loop.  Messages are never validated. -/
def validate_structs (files : List RuneFileDescription) : Except RuneParserError Unit :=
  match files with
  | [] => .ok ()
  | file :: rest =>
    match validateStructList file.definitions.structs with
    | .error e => .error e
    | .ok () => validate_structs rest
where
  /-- The per-file struct loop. -/
  validateStructList : List StructDefinition → Except RuneParserError Unit
    | [] => .ok ()
    | d :: rest =>
      if 1 < (d.members.filter (fun x => x.index.is_verifier)).length then
        .error .IndexCollision
      else
        match validateStructMembers d d.members with
        | .error e => .error e
        | .ok () => validateStructList rest

/-- `validate_parsed_files`: names, bitfields, enums, structs, fail-fast;
messages are not checked by any stage. -/
def validate_parsed_files (files : List RuneFileDescription) :
    Option (Except RuneParserError Unit) :=
  match validate_names files with
  | none => none
  | some (.error e) => some (.error e)
  | some (.ok ()) =>
    match validate_bitfields files with
    | .error e => some (.error e)
    | .ok () =>
      match validate_enums files with
      | .error e => some (.error e)
      | .ok () =>
        match validate_structs files with
        | .error e => some (.error e)
        | .ok () => some (.ok ())

/-! ## Driver — `src/lib.rs` `parser_rune_files` (post-processing part) -/

/-- The post-processing and validation sequence of `parser_rune_files`
(`src/lib.rs` lines 193–208): `parse_define_statements`, then
`link_user_definitions`, then `parse_extensions`, then
`validate_parsed_files`, returning the definitions list. -/
def parser_rune_files_post (fuel : Nat) (files : List RuneFileDescription)
    (append_extensions : Bool) :
    Option (Except RuneParserError (List RuneFileDescription)) :=
  match parse_define_statements files with
  | none => none
  | some (.error e) => some (.error e)
  | some (.ok files1) =>
    match link_user_definitions fuel files1 with
    | none => none
    | some (.error e) => some (.error e)
    | some (.ok files2) =>
      match parse_extensions files2 append_extensions with
      | none => none
      | some (.error e) => some (.error e)
      | some (.ok files3) =>
        match validate_parsed_files files3 with
        | none => none
        | some (.error e) => some (.error e)
        | some (.ok _) => some (.ok files3)

/-- The pipeline in the order the spec claims (Constant Resolver, then
Extension Merger, then Type Linker, then Validator), stated from the
spec's words for comparison with `parser_rune_files_post`. -/
def specClaimedPipeline (fuel : Nat) (files : List RuneFileDescription)
    (append_extensions : Bool) :
    Option (Except RuneParserError (List RuneFileDescription)) :=
  match parse_define_statements files with
  | none => none
  | some (.error e) => some (.error e)
  | some (.ok files1) =>
    match parse_extensions files1 append_extensions with
    | none => none
    | some (.error e) => some (.error e)
    | some (.ok files2) =>
      match link_user_definitions fuel files2 with
      | none => none
      | some (.error e) => some (.error e)
      | some (.ok files3) =>
        match validate_parsed_files files3 with
        | none => none
        | some (.error e) => some (.error e)
        | some (.ok ()) => some (.ok files3)

namespace Validation

/-! The enum-value range check `FieldType::validate_value`
(`src/validation.rs` lines 79–150) is written against the pre-refactor
scalar vocabulary (`UByte`, `Short`, …); its `NumericLiteral` variants
`PositiveBinary/PositiveDecimal/PositiveHexadecimal(u64)` and the negative
triple are the per-numeral-system spelling of `positiveInteger (v, system)`
/ `negativeInteger (v, system)` above, so the embedding reuses
`Rune.NumericLiteral`.  The type below carries exactly the scalar backings
the function distinguishes; its remaining match arm is
`unreachable!`. -/

/-- The scalar backing types distinguished by `FieldType::validate_value`. -/
inductive FieldType
  | Boolean
  | Char
  | UByte
  | Byte
  | UShort
  | Short
  | Float
  | UInt
  | Int
  | Double
  | ULong
  | Long
deriving DecidableEq, Repr

/-- `f32::MAX` as an exact rational: `(2 ^ 24 - 1) * 2 ^ 104`. -/
def f32MaxRat : Rat := (16777215 : Rat) * 2 ^ 104

/-- `src/validation.rs` `FieldType::validate_value`: range check of an
enum member or reserved value against the backing type.  The unsigned
bounds come from the half-open Rust ranges `uN::MIN..uN::MAX` (so the
maximum value of each unsigned width is excluded), the positive signed
bounds use `<= iN::MAX` except `Long`, which uses `< i64::MAX`. -/
def validate_value (backing : FieldType) (value : NumericLiteral) : Bool :=
  match backing with
  | .Boolean =>
    match value with
    | .boolean _ => true
    | _ => false
  | .Char | .Byte =>
    match value with
    | .positiveInteger v _ => v ≤ 127
    | .negativeInteger v _ => decide (-128 ≤ v ∧ v < 127)
    | _ => false
  | .UByte =>
    match value with
    | .positiveInteger v _ => v < 255
    | _ => false
  | .Short =>
    match value with
    | .positiveInteger v _ => v ≤ 32767
    | .negativeInteger v _ => decide (-32768 ≤ v ∧ v < 32767)
    | _ => false
  | .UShort =>
    match value with
    | .positiveInteger v _ => v < 65535
    | _ => false
  | .Float =>
    match value with
    | .float q => decide (-f32MaxRat ≤ q ∧ q < f32MaxRat)
    | _ => false
  | .Int =>
    match value with
    | .positiveInteger v _ => v ≤ 2147483647
    | .negativeInteger v _ => decide (-2147483648 ≤ v ∧ v < 2147483647)
    | _ => false
  | .UInt =>
    match value with
    | .positiveInteger v _ => v < 4294967295
    | _ => false
  | .Double =>
    match value with
    | .float _ => true
    | _ => false
  | .Long =>
    match value with
    | .positiveInteger v _ => v < 9223372036854775807
    | .negativeInteger _ _ => true
    | _ => false
  | .ULong =>
    match value with
    | .positiveInteger _ _ => true
    | _ => false

end Validation

/-! ## Shared example scaffolding -/

/-- An empty extension bucket. -/
def emptyExtensions : Extensions :=
  { bitfields := [], enums := [], messages := [], structs := [] }

/-- An empty declaration tree. -/
def emptyDefinitions : Definitions :=
  { bitfields := [], defines := [], redefines := [], enums := [],
    extensions := emptyExtensions, includes := [], messages := [],
    standalone_comments := [], structs := [] }

/-- Build a one-definition-tree file. -/
def mkFile (name : String) (definitions : Definitions) : RuneFileDescription :=
  { relative_path := "", name := name, definitions := definitions }

/-- A `u8` message field at a numeric index. -/
def u8Field (identifier : String) (index : Nat) : MessageField :=
  .mk identifier (.primitive .u8) (.numeric index) none

/-- Input for C9: one define `A` and two pending redefines, `A` first —
the attachment loop removes `A` from the pending list and then indexes
past its shortened end. -/
def exC9 : List RuneFileDescription :=
  [mkFile "defines" { emptyDefinitions with
    defines := [{ name := "A",
                  value := .numericLiteral (.positiveInteger 4 .decimal),
                  comment := none, redefinition := none }],
    redefines := [{ name := "A",
                    value := .numericLiteral (.positiveInteger 10 .decimal),
                    comment := none },
                  { name := "B",
                    value := .numericLiteral (.positiveInteger 7 .decimal),
                    comment := none }] }]

/-- C9: the redefine-attachment step of the Constant Resolver is claimed
never to index past the shortened pending list; in fact, when a define
matches a redefine that is not the last pending entry, `swap_remove`
shortens the list while the loop bound stays fixed, and the next
iterations index out of bounds (a panic, modelled as `none`). -/
theorem parse_define_statements_attach_out_of_bounds :
    parse_define_statements exC9 = none := rfl

/-- Input for C10: a single file declaring only a message, so the
collected name list is empty. -/
def exC10 : List RuneFileDescription :=
  [mkFile "only_messages" { emptyDefinitions with
    messages := [.mk "M" [u8Field "x" 0] [] none []] }]

/-- C10: name validation is claimed to return a `Result` without
panicking for every file set; in fact, on a file set declaring no
bitfields, defines, enums or structs the loop bound
`names_list.len() - 1` underflows and the scan panics (modelled as
`none`), and the whole validation pass panics with it. -/
theorem validate_names_empty_panics :
    validate_names exC10 = none ∧ validate_parsed_files exC10 = none :=
  ⟨rfl, rfl⟩

/-- Input for C3: `define N = 4;`, `redefine N = 10;` and a message with
an array field `[u8; N]`. -/
def exC3 : List RuneFileDescription :=
  [mkFile "round_trip" { emptyDefinitions with
    defines := [{ name := "N",
                  value := .numericLiteral (.positiveInteger 4 .decimal),
                  comment := none, redefinition := none }],
    redefines := [{ name := "N",
                    value := .numericLiteral (.positiveInteger 10 .decimal),
                    comment := none }],
    messages := [.mk "M"
      [.mk "arr"
        (.array (.mk (.primitive .u8)
          (.userDefinition { name := "N", value := .noValue,
                             comment := none, redefinition := none })))
        (.numeric 0) none]
      [] none []] }]

/-- Extract the resolved element count of the first array field of the
first message of the first file. -/
def firstArrayCountValue
    (r : Option (Except RuneParserError (List RuneFileDescription))) :
    Option (Except RuneParserError Nat) :=
  match r with
  | some (.ok (file :: _)) =>
    match file.definitions.messages with
    | m :: _ =>
      match m.fields with
      | f :: _ =>
        match f.data_type with
        | .array a => some a.element_count.value
        | _ => none
      | [] => none
    | [] => none
  | _ => none

/-- C3: with `define N = 4` and `redefine N = 10`, the claim says an
array declared with size `N` resolves to 10.  The resolver attaches the
redefinition to the live define but resolves array counts from the
flattened define list cloned *before* attachment, where `redefinition` is
still `None`, so the count resolves to the define's original value 4. -/
theorem resolve_array_count_ignores_redefine :
    firstArrayCountValue (parse_define_statements exC3) = some (.ok 4) ∧
    (4 : Nat) ≠ 10 :=
  ⟨rfl, by decide⟩

/-- Input for C2: two files, each contributing a message extension
fragment for the same target `M` with distinct field identifiers, and no
struct fragments. -/
def exC2 : List RuneFileDescription :=
  [mkFile "a" { emptyDefinitions with
    extensions := { emptyExtensions with
      messages := [.mk "M" [u8Field "f1" 0] [] none []] } },
   mkFile "b" { emptyDefinitions with
    extensions := { emptyExtensions with
      messages := [.mk "M" [u8Field "f2" 1] [] none []] } }]

/-- C2: the merger is claimed to leave one merged message fragment whose
field list is the union of the fragments' fields.  In fact the message
merge loop, after checking the message fragments, performs its merge on
`struct_extensions`: with two message fragments of the same name and no
struct fragments it indexes `struct_extensions[1]` in an empty list — a
panic (modelled as `none`); the message fields are never merged. -/
theorem parse_extensions_message_merge_panics :
    parse_extensions exC2 true = none ∧ parse_extensions exC2 false = none :=
  ⟨rfl, rfl⟩

/-- Input for C8: an enum `E`, a struct `S` whose single member is an
array of element type `E` (unresolved), referenced as a data
definition. -/
def exC8 : List RuneFileDescription :=
  [mkFile "nested" { emptyDefinitions with
    enums := [{ name := "E", backing_type := .u8, members := [],
                reserved_values := [], comment := none, orphan_comments := [] }],
    structs := [.mk "S"
      [.mk "a" (.array (.mk (.userDefined "E" .noLink) (.integer 2 .decimal)))
        (.numeric 0) none]
      [] none []] }]

/-- The link `find_data_definition` returns for `S` in `exC8`: the cloned
struct still carries the unresolved array element link. -/
def exC8link : UserDefinitionLink :=
  .structLink (.mk "S"
    [.mk "a" (.array (.mk (.userDefined "E" .noLink) (.integer 2 .decimal)))
      (.numeric 0) none]
    [] none [])

/-- C8: every successfully resolved link is claimed to be fully
self-contained (no nested `NoLink` at any depth).  The recursive clone
resolution only rewrites members whose type is directly
`MemberType::UserDefined`; a struct member that is an *array* of a
user-defined element type keeps its `NoLink` inside the returned
snapshot. -/
theorem find_data_definition_array_member_unresolved :
    find_data_definition 16 "S" exC8 = some (.ok exC8link) ∧
    exC8link.fullyResolved = false :=
  ⟨rfl, rfl⟩

/-- Input for C5's validation-pass conjunct: a `u8`-backed enum with a
member value 300, outside the backing range. -/
def exC5 : List RuneFileDescription :=
  [mkFile "enums" { emptyDefinitions with
    enums := [{ name := "Color", backing_type := .u8,
                members := [{ identifier := "A",
                              value := .positiveInteger 300 .decimal,
                              comment := none }],
                reserved_values := [], comment := none, orphan_comments := [] }] }]

/-- C5: the claim says the validation pass rejects out-of-range
enum values and accepts values exactly up to each backing type's true
bounds (255 for u8, 65535 for u16, `i64::MAX` for i64).  In fact the
range check `validate_value` uses half-open ranges and rejects each of
those boundary values, and the validation pass itself performs no range
check at all — a schema whose `u8`-backed enum holds 300 validates
`Ok`. -/
theorem validate_value_rejects_type_bounds :
    Validation.validate_value .UByte (.positiveInteger 255 .decimal) = false ∧
    Validation.validate_value .UShort (.positiveInteger 65535 .decimal) = false ∧
    Validation.validate_value .Long
      (.positiveInteger 9223372036854775807 .decimal) = false ∧
    Validation.validate_value .UByte (.positiveInteger 254 .decimal) = true ∧
    validate_parsed_files exC5 = some (.ok ()) :=
  ⟨rfl, rfl, by decide, rfl, rfl⟩

/-- Input for C4's counterexample: a valid struct (so the name list is
non-empty) and a message with two fields at index 0. -/
def exC4 : List RuneFileDescription :=
  [mkFile "messages" { emptyDefinitions with
    structs := [.mk "V" [.mk "a" (.primitive .u8) (.numeric 0) none] [] none []],
    messages := [.mk "M" [u8Field "x" 0, u8Field "y" 0] [] none []] }]

/-- C4 counterexample: the claim extends the duplicate-index rejection to
every message, but the validation pass never visits messages — a message
with two fields at index 0 validates `Ok` instead of failing with
`IndexCollision`. -/
theorem message_duplicate_index_not_validated :
    validate_parsed_files exC4 = some (.ok ()) ∧
    (some (.ok ()) : Option (Except RuneParserError Unit)) ≠
      some (.error .IndexCollision) :=
  ⟨rfl, by simp⟩

/-! ## C1 — pass order of the driver -/

/-- Sequencing of passes: propagate panics and errors, feed the produced
file list to the next pass. -/
def passBind {α β : Type} (x : Option (Except RuneParserError α))
    (f : α → Option (Except RuneParserError β)) :
    Option (Except RuneParserError β) :=
  match x with
  | none => none
  | some (.error e) => some (.error e)
  | some (.ok a) => f a

/-- C1 (amended): the driver composes the passes in the order Constant
Resolver → Type Linker → Extension Merger → Validator (the claimed
merger-before-linker order is refuted by
`pipeline_pass_order_counterexample`). -/
theorem pipeline_pass_order (fuel : Nat) (files : List RuneFileDescription)
    (append_extensions : Bool) :
    parser_rune_files_post fuel files append_extensions =
      passBind (parse_define_statements files) (fun files1 =>
        passBind (link_user_definitions fuel files1) (fun files2 =>
          passBind (parse_extensions files2 append_extensions) (fun files3 =>
            passBind (validate_parsed_files files3) (fun _ =>
              some (.ok files3))))) := by
  unfold parser_rune_files_post passBind
  repeat' first | rfl | split
  all_goals simp_all

/-- Input for C1's counterexample: an enum `E`, a struct `Point` with one
`u8` member, and a struct extension fragment adding a member `z` of the
user type `E`.  Under the claimed order the linker sees the spliced `z`
and resolves it; under the real order the spliced member stays
unresolved. -/
def exC1 : List RuneFileDescription :=
  [mkFile "geometry" { emptyDefinitions with
    enums := [{ name := "E", backing_type := .u8, members := [],
                reserved_values := [], comment := none, orphan_comments := [] }],
    structs := [.mk "Point" [.mk "x" (.primitive .u8) (.numeric 0) none] [] none []],
    extensions := { emptyExtensions with
      structs := [.mk "Point" [.mk "z" (.userDefined "E" .noLink) (.numeric 1) none]
        [] none []] } }]

/-- Observable of a pipeline result: for each file, whether each struct's
members are fully link-resolved. -/
def pipelineObservable
    (r : Option (Except RuneParserError (List RuneFileDescription))) :
    Option (List (List Bool)) :=
  match r with
  | some (.ok files) =>
    some (files.map (fun f => f.definitions.structs.map (fun s => membersResolved s.members)))
  | _ => none

/-- C1 counterexample: the produced schema does **not** equal the
Validator ∘ Type Linker ∘ Extension Merger ∘ Constant Resolver
composition the claim states — on `exC1` the real driver (merger after
linker) leaves the spliced member's link unresolved, while the claimed
order resolves it. -/
theorem pipeline_pass_order_counterexample :
    parser_rune_files_post 32 exC1 true ≠ specClaimedPipeline 32 exC1 true := by
  intro h
  have h2 := congrArg pipelineObservable h
  have hA : pipelineObservable (parser_rune_files_post 32 exC1 true) =
      some [[false]] := rfl
  have hB : pipelineObservable (specClaimedPipeline 32 exC1 true) =
      some [[true]] := rfl
  rw [hA, hB] at h2
  exact absurd h2 (by decide)

/-! ## C4 — struct index-collision detection -/

/-- A member list whose index values are not pairwise distinct contains a
member whose index value occurs at least twice in it. -/
theorem exists_double_of_not_pairwise (l : List StructMember)
    (h : ¬ l.Pairwise (fun a b => a.index.value ≠ b.index.value)) :
    ∃ m ∈ l, 2 ≤ (l.filter (fun x => x.index.value == m.index.value)).length := by
  induction l with
  | nil => exact absurd List.Pairwise.nil h
  | cons a l ih =>
    by_cases ha : ∃ b ∈ l, a.index.value = b.index.value
    · obtain ⟨b, hb, hab⟩ := ha
      refine ⟨a, List.mem_cons_self a l, ?_⟩
      have hbf : b ∈ l.filter (fun x => x.index.value == a.index.value) :=
        List.mem_filter.mpr ⟨hb, by simp [hab.symm]⟩
      have hlen : 0 < (l.filter (fun x => x.index.value == a.index.value)).length :=
        List.length_pos_of_mem hbf
      have hcons : (a :: l).filter (fun x => x.index.value == a.index.value) =
          a :: l.filter (fun x => x.index.value == a.index.value) :=
        List.filter_cons_of_pos (by simp)
      rw [hcons, List.length_cons]
      omega
    · have hno : ∀ b ∈ l, a.index.value ≠ b.index.value :=
        fun b hb hev => ha ⟨b, hb, hev⟩
      have hl : ¬ l.Pairwise (fun a b => a.index.value ≠ b.index.value) :=
        fun hp => h (List.pairwise_cons.mpr ⟨hno, hp⟩)
      obtain ⟨m, hm, hc⟩ := ih hl
      refine ⟨m, List.mem_cons_of_mem a hm, ?_⟩
      have hmono : (l.filter (fun x => x.index.value == m.index.value)).length ≤
          ((a :: l).filter (fun x => x.index.value == m.index.value)).length := by
        rw [List.filter_cons]
        split
        · rw [List.length_cons]; omega
        · exact Nat.le_refl _
      omega

/-- If no traversed member lies on a reserved index or duplicates an
identifier, and some traversed member's index value occurs at least twice
in the whole member list, the member loop fails with `IndexCollision`. -/
theorem validateStructMembers_collision (d : StructDefinition)
    (ms : List StructMember)
    (hres : ∀ m ∈ ms, ¬ d.reserved_indexes.any (fun r => r.value == m.index.value) = true)
    (hid : ∀ m ∈ ms, (d.members.filter (fun x => x.identifier == m.identifier)).length ≤ 1)
    (hdup : ∃ m ∈ ms, 2 ≤ (d.members.filter (fun x => x.index.value == m.index.value)).length) :
    validateStructMembers d ms = .error .IndexCollision := by
  induction ms with
  | nil => simp at hdup
  | cons m rest ih =>
    simp only [validateStructMembers]
    by_cases hcol : 1 < (d.members.filter (fun x => x.index.value == m.index.value)).length
    · rw [if_pos hcol]
    · have hresP := hres m (List.mem_cons_self m rest)
      have hid' := hid m (List.mem_cons_self m rest)
      have hidP : ¬ 1 < (d.members.filter (fun x => x.identifier == m.identifier)).length := by
        omega
      rw [if_neg hcol, if_neg hresP, if_neg hidP]
      obtain ⟨w, hw, hwc⟩ := hdup
      have hwrest : w ∈ rest := by
        rcases List.mem_cons.mp hw with hwm | hwr
        · subst hwm; omega
        · exact hwr
      exact ih (fun x hx => hres x (List.mem_cons_of_mem m hx))
        (fun x hx => hid x (List.mem_cons_of_mem m hx))
        ⟨w, hwrest, hwc⟩

/-- C4 (amended): for a struct whose members use no reserved index and
have pairwise-distinct identifiers, struct validation fails with
`IndexCollision` whenever two members resolve to the same index value
(the verifier alias denotes 0, so it collides with an explicit 0) or more
than one member uses the verifier alias.  Messages are not validated at
all (`message_duplicate_index_not_validated`). -/
theorem validate_structs_index_collision (s : StructDefinition) (name : String)
    (hres : ∀ m ∈ s.members, ¬ s.reserved_indexes.any (fun r => r.value == m.index.value) = true)
    (hid : ∀ m ∈ s.members, (s.members.filter (fun x => x.identifier == m.identifier)).length ≤ 1)
    (hdup : (¬ s.members.Pairwise (fun a b => a.index.value ≠ b.index.value)) ∨
      1 < (s.members.filter (fun x => x.index.is_verifier)).length) :
    validate_structs [mkFile name { emptyDefinitions with structs := [s] }] =
      .error .IndexCollision := by
  have hmain : validate_structs.validateStructList [s] = .error .IndexCollision := by
    simp only [validate_structs.validateStructList]
    by_cases hver : 1 < (s.members.filter (fun x => x.index.is_verifier)).length
    · rw [if_pos hver]
    · rw [if_neg hver]
      have hdup' : ¬ s.members.Pairwise (fun a b => a.index.value ≠ b.index.value) := by
        rcases hdup with h | h
        · exact h
        · exact absurd h hver
      have hcol := validateStructMembers_collision s s.members hres hid
        (exists_double_of_not_pairwise s.members hdup')
      rw [hcol]
  simp only [validate_structs, mkFile]
  rw [hmain]

/-- Input for the C4 witness: a struct with a verifier-aliased member and
a member at explicit index 0. -/
def exC4struct : StructDefinition :=
  .mk "S" [.mk "check" (.primitive .u8) .verifier none,
           .mk "first" (.primitive .u8) (.numeric 0) none] [] none []

/-- Witness for C4 (amended) at `exC4struct`: the verifier alias and an
explicit index 0 collide. -/
theorem validate_structs_index_collision_witness :
    validate_structs [mkFile "w" { emptyDefinitions with structs := [exC4struct] }] =
      .error .IndexCollision :=
  validate_structs_index_collision exC4struct "w" (by decide) (by decide)
    (.inl (by decide))

/-! ## C6 — optimal message size -/

/-- Modelled from the claim: the smallest sufficient array length-header
width, chosen by payload byte size — 1 byte if it fits a `u8`, 2 for a
`u16`, 4 for a `u32`. -/
def claimedLengthHeader (p : Nat) : Nat :=
  if p ≤ 255 then 1 else if p ≤ 65535 then 2 else 4

/-- Modelled from the claim: every field contributes a 1-byte header plus
its payload, an array payload additionally the length header. -/
def specClaimedOptLoop : List MessageField → Nat → Option Nat
  | [], total => some total
  | field :: rest, total =>
    match MessageField.full_encoded_size field false with
    | .ok (some p) =>
      specClaimedOptLoop rest (total + 1 + p +
        (match field.data_type with
         | .array _ => claimedLengthHeader p
         | _ => 0))
    | _ => none

/-- Modelled from the claim: the optimal size as the claim describes it. -/
def specClaimedOptimalSize (msg : MessageDefinition) : Option Nat :=
  specClaimedOptLoop msg.fields 0

/-- Input for C6's counterexample: a message with one skipped (empty)
field — a zero-byte payload. -/
def exC6 : MessageDefinition := .mk "M" [.mk "gap" .empty (.numeric 0) none] [] none []

/-- C6 counterexample: the claim says every field, even with a zero-byte
payload, contributes its 1-byte header; the code gives a zero payload no
header at all, so the message totals 0 bytes where the claim demands 1. -/
theorem optimal_size_zero_payload_counterexample :
    MessageDefinition.optimal_full_encoded_size exC6 = .ok 0 ∧
    specClaimedOptimalSize exC6 = some 1 ∧
    ((.ok 0 : Except RuneParserError Nat) ≠ .ok 1) := by
  refine ⟨?_, ?_, by simp⟩
  · simp [exC6, MessageDefinition.optimal_full_encoded_size, optimalFieldsLoop,
      MessageField.full_encoded_size, optimal_encoded_data_size, wrap64]
  · simp [exC6, specClaimedOptimalSize, specClaimedOptLoop,
      MessageField.full_encoded_size, MessageDefinition.fields,
      MessageField.data_type]

/-- Modelled from the amended claim: the per-payload encoded size table —
0 stays 0; 1, 2, 4 and 8 get only the 1-byte header; any other payload
also carries a length header by size class (up to 254, up to 65534, up to
2³² − 2) whether or not the field is an array; larger payloads are
rejected. -/
def amendedOptimalContribution (p : Nat) : Option Nat :=
  if p = 0 then some 0
  else if p = 1 ∨ p = 2 ∨ p = 4 ∨ p = 8 then some (1 + p)
  else if p ≤ 254 then some (2 + p)
  else if p ≤ 65534 then some (3 + p)
  else if p ≤ 4294967294 then some (5 + p)
  else none

/-- The payload of a field under optimal encoding (0 when unavailable;
used only under hypotheses making it available). -/
def fieldPayloadD (f : MessageField) : Nat :=
  match MessageField.full_encoded_size f false with
  | .ok (some p) => p
  | _ => 0

/-- The per-payload table of the source agrees with the amended table. -/
theorem optimal_encoded_data_size_agrees (p c : Nat)
    (h : amendedOptimalContribution p = some c) :
    optimal_encoded_data_size p = .ok c := by
  unfold amendedOptimalContribution at h
  unfold optimal_encoded_data_size u8RangeContains u16RangeContains u32RangeContains
  split_ifs at h ⊢ <;> simp_all <;> omega

/-- Loop form of the amended optimal-size statement. -/
theorem optimalFieldsLoop_amended (fields : List MessageField) (total : Nat)
    (h : ∀ f ∈ fields, ∃ p c, MessageField.full_encoded_size f false = .ok (some p) ∧
      amendedOptimalContribution p = some c) :
    optimalFieldsLoop fields total =
      .ok (fields.foldl (fun t f =>
        wrap64 (t + (amendedOptimalContribution (fieldPayloadD f)).getD 0)) total) := by
  induction fields generalizing total with
  | nil => simp [optimalFieldsLoop]
  | cons f rest ih =>
    obtain ⟨p, c, hfull, hc⟩ := h f (List.mem_cons_self f rest)
    have hpay : fieldPayloadD f = p := by
      unfold fieldPayloadD
      rw [hfull]
    simp only [optimalFieldsLoop, hfull, optimal_encoded_data_size_agrees p c hc,
      List.foldl_cons, hpay, hc, Option.getD_some]
    exact ih _ (fun x hx => h x (List.mem_cons_of_mem f hx))

/-- C6 (amended): for a message whose fields' payloads are all available
and within the `u32` limit, the optimal encoded size is the `u64` sum
over fields of the table `amendedOptimalContribution` applied to the
field's payload: a zero payload contributes nothing, payloads of 1, 2, 4
or 8 bytes contribute one header byte plus the payload, and every other
payload — array or not — additionally carries the smallest sufficient
length header (sub-messages contribute their own optimal size as
payload). -/
theorem optimal_size_amended (msg : MessageDefinition)
    (h : ∀ f ∈ msg.fields, ∃ p c, MessageField.full_encoded_size f false = .ok (some p) ∧
      amendedOptimalContribution p = some c) :
    MessageDefinition.optimal_full_encoded_size msg =
      .ok (msg.fields.foldl (fun t f =>
        wrap64 (t + (amendedOptimalContribution (fieldPayloadD f)).getD 0)) 0) := by
  cases msg with
  | mk name fields reserved comment orphans =>
    simp only [MessageDefinition.optimal_full_encoded_size, MessageDefinition.fields] at h ⊢
    exact optimalFieldsLoop_amended fields 0 h

/-- Input for the C6 witness: a `u8` field and a 3-byte array field. -/
def exC6w : MessageDefinition :=
  .mk "W" [u8Field "x" 0,
    .mk "arr" (.array (.mk (.primitive .u8) (.integer 3 .decimal))) (.numeric 1) none]
    [] none []

/-- Witness for C6 (amended) at `exC6w`: hypotheses discharged at a
concrete message. -/
theorem optimal_size_amended_witness :
    MessageDefinition.optimal_full_encoded_size exC6w =
      .ok (exC6w.fields.foldl (fun t f =>
        wrap64 (t + (amendedOptimalContribution (fieldPayloadD f)).getD 0)) 0) := by
  apply optimal_size_amended
  intro f hf
  simp only [exC6w, MessageDefinition.fields, List.mem_cons,
    List.not_mem_nil, or_false] at hf
  rcases hf with rfl | rfl
  · exact ⟨1, 2, by simp [u8Field, MessageField.full_encoded_size,
      Primitive.encoded_max_data_size], by simp [amendedOptimalContribution]⟩
  · exact ⟨3, 5, by simp [MessageField.full_encoded_size, Array.byte_size,
      ArrayType.size, ArraySize.value, Primitive.encoded_max_data_size, wrap64],
      by simp [amendedOptimalContribution]⟩

/-! ## C7 — worst-case message size -/

/-- Modelled from the claim: index `i` is occupied by a field whose
worst-case payload is decidable. -/
def worstOccupiedDecidable (fields : List MessageField) (i : Nat) : Bool :=
  match fields.find? (fun f => f.index.value == i) with
  | none => false
  | some f =>
    match MessageField.full_encoded_size f true with
    | .ok (some _) => true
    | _ => false

/-- Modelled from the claim: add the fixed 5-byte per-field overhead plus
the payload of the field occupying index `i`. -/
def worstStep (fields : List MessageField) (total i : Nat) : Nat :=
  match fields.find? (fun f => f.index.value == i) with
  | none => total
  | some f =>
    match MessageField.full_encoded_size f true with
    | .ok (some v) => wrap64 (total + (5 + v))
    | _ => total

/-- Modelled from the claim: every index from 0 to the maximum declared
index is occupied and decidable. -/
def specWorstGapFree (fields : List MessageField) : Bool :=
  (List.range (largestIndex fields + 1)).all (worstOccupiedDecidable fields)

/-- Modelled from the claim: the sum over indexes 0..max of the 5-byte
overhead plus payload (`u64` accumulation). -/
def specWorstSum (fields : List MessageField) : Nat :=
  (List.range (largestIndex fields + 1)).foldl (worstStep fields) 0

/-- `largestIndex` is bounded by any bound on the field indexes. -/
theorem largestIndex_lt (fields : List MessageField) (b : Nat) (hb : 0 < b)
    (h : ∀ f ∈ fields, f.index.value < b) : largestIndex fields < b := by
  induction fields with
  | nil => simpa [largestIndex]
  | cons f rest ih =>
    rw [largestIndex]
    have h1 := h f (List.mem_cons_self f rest)
    have h2 := ih (fun x hx => h x (List.mem_cons_of_mem f hx))
    omega

/-- Loop form of the worst-case characterization. -/
theorem worstLoop_spec (fields : List MessageField)
    (herr : ∀ f ∈ fields, ∀ e, MessageField.full_encoded_size f true ≠ .error e) :
    ∀ (gas i total : Nat),
      worstLoop fields gas i total =
        .ok (if (List.range' i gas).all (worstOccupiedDecidable fields)
             then some ((List.range' i gas).foldl (worstStep fields) total)
             else none) := by
  intro gas
  induction gas with
  | zero => intro i total; simp [worstLoop]
  | succ gas ih =>
    intro i total
    rw [worstLoop]
    cases hfind : fields.find? (fun f => f.index.value == i) with
    | none =>
      have hocc : worstOccupiedDecidable fields i = false := by
        simp only [worstOccupiedDecidable, hfind]
      simp [List.range'_succ, hocc]
    | some f =>
      have hmem : f ∈ fields := List.mem_of_find?_eq_some hfind
      cases hfull : MessageField.full_encoded_size f true with
      | error e => exact absurd hfull (herr f hmem e)
      | ok v =>
        cases v with
        | none =>
          have hocc : worstOccupiedDecidable fields i = false := by
            simp only [worstOccupiedDecidable, hfind, hfull]
          simp [hfull, List.range'_succ, hocc]
        | some w =>
          have hocc : worstOccupiedDecidable fields i = true := by
            simp only [worstOccupiedDecidable, hfind, hfull]
          have hstep : worstStep fields total i = wrap64 (total + (5 + w)) := by
            simp only [worstStep, hfind, hfull]
          simp only [hfull]
          rw [ih (i + 1) (wrap64 (total + (5 + w)))]
          simp [List.range'_succ, hocc, hstep]

/-- C7: for a message whose field indexes are below the parser-enforced
limit of 32 and whose fields' worst-case sizes raise no error, the
worst-case encoded size is a number exactly when every index from 0 to
the maximum declared index is occupied by a field whose worst case is
decidable, and that number is the sum over those indexes of the 5-byte
per-field overhead plus the occupying field's payload. -/
theorem worst_case_size_spec (msg : MessageDefinition)
    (hidx : ∀ f ∈ msg.fields, f.index.value < 32)
    (herr : ∀ f ∈ msg.fields, ∀ e, MessageField.full_encoded_size f true ≠ .error e) :
    MessageDefinition.worst_case_encoded_size msg =
      .ok (if specWorstGapFree msg.fields then some (specWorstSum msg.fields) else none) := by
  cases msg with
  | mk name fields reserved comment orphans =>
    simp only [MessageDefinition.fields] at hidx herr ⊢
    have hL : largestIndex fields < 32 := largestIndex_lt fields 32 (by omega) hidx
    have hwrap : wrap64 (largestIndex fields + 1) = largestIndex fields + 1 := by
      unfold wrap64
      exact Nat.mod_eq_of_lt (by omega)
    rw [MessageDefinition.worst_case_encoded_size, hwrap,
      worstLoop_spec fields herr (largestIndex fields + 1) 0 0]
    rw [specWorstGapFree, specWorstSum, List.range_eq_range']

/-- Input for the C7 witness: fields at indexes 0 and 1. -/
def exC7 : MessageDefinition :=
  .mk "W" [u8Field "x" 0,
    .mk "y" (.primitive .u16) (.numeric 1) none] [] none []

/-- Witness for C7 at `exC7`: hypotheses discharged at a concrete
message. -/
theorem worst_case_size_spec_witness :
    MessageDefinition.worst_case_encoded_size exC7 =
      .ok (if specWorstGapFree exC7.fields then some (specWorstSum exC7.fields) else none) := by
  apply worst_case_size_spec
  · decide
  · intro f hf e
    simp only [exC7, MessageDefinition.fields, List.mem_cons,
      List.not_mem_nil, or_false] at hf
    rcases hf with rfl | rfl
    · simp [u8Field, MessageField.full_encoded_size]
    · simp [MessageField.full_encoded_size]

end Rune
